import Mathlib

/-!
# Verification of the Snowflake MCP database session manager

A shallow embedding, in Lean 4, of `src/mcp_snowflake_server/db_client.py`:
the class `SnowflakeDB` with its operations `_init_database`,
`test_connection`, `start_init_connection`, `execute_query`, `add_insight`
and `get_memo`.

Modelling decisions (each mirrors a specific feature of the Python source):

* The external Snowflake driver is an oracle.  An `InitBehavior` describes the
  outcome of the two driver calls made by `_init_database`
  (`snowflake.connector.connect(**conn_params)` and `connection.cursor()`);
  the query/introspection calls of `execute_query` and `test_connection` are
  described by `Except` valued fields of the per-call environments.
* Python exceptions are values of `PyErr` (a kind, e.g. `"ValueError"`, plus
  a message); `str(e)` is `PyErr.str`.  A method that may raise returns an
  `Except PyErr` result together with the state it leaves behind, because in
  Python an exception does not roll back prior attribute assignments.
* Python `dict` is an insertion-ordered association list: inserting an
  existing key updates the value in place (keeping the original position),
  inserting a new key appends; `dict(zip(columns, row))` is `dictOfZip`.
* `time.time()` is the integer parameter `now` of each call; `auth_time`
  starts at `0` as in `__init__`.
* `uuid.uuid4()` is modelled as a fresh-identifier supply indexed by a draw
  counter (field `uuidSrc` of the environment): distinct draws yield distinct
  non-empty strings.  Only freshness and non-emptiness are relied on.
* `self.init_task` is `Option Bool`: `none` when no task was created,
  `some false` while the task is pending (`not done()`), `some true` once it
  is done.  Awaiting a pending task runs the task body (`_init_database`)
  with the behavior the environment assigns to that task and marks it done.
* Two ghost fields instrument the state for the stated invariants and are
  written only by `init_database`: `everInitOk` (some initialization has
  succeeded) and `lastInitOk` (outcome of the most recent initialization).
-/

/-- A Python exception: its class name and its message (`str(e)`). -/
structure PyErr where
  kind : String
  msg : String
deriving Repr, DecidableEq

/-- `str(e)` for an exception: its message. -/
def PyErr.str (e : PyErr) : String := e.msg

/-- A SQL value as delivered by the driver (enough structure for the claims). -/
inductive Value where
| int (n : Int)
| str (s : String)
| null
deriving Repr, DecidableEq

/-- A Python `dict` from column names to values: an insertion-ordered
association list whose keys are unique. -/
abbrev PyDict := List (String × Value)

/-- Inserting into a Python `dict`: an existing key keeps its position and
gets the new value, a new key is appended at the end. -/
def dictInsert (d : PyDict) (k : String) (v : Value) : PyDict :=
  if d.any (fun p => p.1 = k) then
    d.map (fun p => if p.1 = k then (k, v) else p)
  else d ++ [(k, v)]

/-- `dict(zip(columns, row))`: fold the zipped pairs into a `dict`. -/
def dictOfZip (columns : List String) (row : List Value) : PyDict :=
  (List.zip columns row).foldl (fun d p => dictInsert d p.1 p.2) []

/-- `d[k]` as an option: the first (and only) entry with key `k`. -/
def dictLookup (d : PyDict) (k : String) : Option Value :=
  (d.find? (fun p => p.1 = k)).map (fun p => p.2)

/-- The state of a `SnowflakeDB` object (`__init__` fields).  `everInitOk`
and `lastInitOk` are ghost instrumentation, written only by
`init_database`. -/
structure SnowflakeDB where
  connection_config : List (String × String)
  connection : Option Nat
  cursor : Option Nat
  insights : List String
  auth_time : Int
  init_task : Option Bool
  everInitOk : Bool
  lastInitOk : Option Bool
deriving Repr, DecidableEq

/-- `AUTH_EXPIRATION_TIME = 1800`. -/
def AUTH_EXPIRATION_TIME : Int := 1800

/-- `SnowflakeDB.__init__(connection_config)`. -/
def SnowflakeDB.new (config : List (String × String)) : SnowflakeDB :=
  { connection_config := config
    connection := none
    cursor := none
    insights := []
    auth_time := 0
    init_task := none
    everInitOk := false
    lastInitOk := none }

/-- `self.connection_config.get(k)`. -/
def configGet (c : List (String × String)) (k : String) : Option String :=
  (c.find? (fun p => p.1 = k)).map (fun p => p.2)

/-- The `conn_params` dictionary built by `_init_database`. -/
def conn_params (s : SnowflakeDB) : List (String × Option String) :=
  [ ("account", configGet s.connection_config "account")
  , ("user", configGet s.connection_config "user")
  , ("authenticator", some "SNOWFLAKE_JWT")
  , ("private_key_file", configGet s.connection_config "private_key_path")
  , ("private_key_file_pwd", configGet s.connection_config "private_key_passphrase")
  , ("warehouse", configGet s.connection_config "warehouse")
  , ("database", configGet s.connection_config "database")
  , ("schema", configGet s.connection_config "schema")
  , ("role", configGet s.connection_config "role") ]

/-- Driver behavior for one run of `_init_database`: the outcome of
`snowflake.connector.connect(**conn_params)` (a connection handle or an
exception) and of `connection.cursor()`. -/
structure InitBehavior where
  connect : List (String × Option String) → Except PyErr Nat
  cursorOf : Nat → Except PyErr Nat

/-- `_init_database`: connect, open a cursor, record the time; any exception
is wrapped as `ValueError(f"Failed to connect to Snowflake database: {e}")`.
Returns the state left behind (assignments before the exception persist)
and the exception, if any.  The ghost fields record the outcome. -/
def init_database (b : InitBehavior) (now : Int) (s : SnowflakeDB) :
    SnowflakeDB × Option PyErr :=
  match b.connect (conn_params s) with
  | .error e =>
      ({ s with lastInitOk := some false },
       some ⟨"ValueError", "Failed to connect to Snowflake database: " ++ e.str⟩)
  | .ok conn =>
      let s1 := { s with connection := some conn }
      match b.cursorOf conn with
      | .error e =>
          ({ s1 with lastInitOk := some false },
           some ⟨"ValueError", "Failed to connect to Snowflake database: " ++ e.str⟩)
      | .ok cur =>
          ({ s1 with cursor := some cur, auth_time := now,
                     everInitOk := true, lastInitOk := some true }, none)

/-- Which branch the session-validity check took. -/
inductive EnsureAction where
| awaitedPending
| freshInit
| proceed
deriving Repr, DecidableEq

/-- The session-validity check that opens both `test_connection` and
`execute_query` (the two methods contain this block verbatim):

* if `self.init_task` exists and is not done, await it (here: run the pending
  task body with behavior `pendingB` and mark the task done; a raising task
  re-raises at the `await`);
* elif there is no connection, or `now - auth_time > 1800`, run
  `_init_database` with behavior `freshB`;
* else do nothing. -/
def ensureStep (pendingB freshB : InitBehavior) (now : Int) (s : SnowflakeDB) :
    SnowflakeDB × Option PyErr × EnsureAction :=
  if s.init_task = some false then
    let r := init_database pendingB now s
    ({ r.1 with init_task := some true }, r.2, .awaitedPending)
  else if s.connection = none ∨ now - s.auth_time > AUTH_EXPIRATION_TIME then
    let r := init_database freshB now s
    (r.1, r.2, .freshInit)
  else (s, none, .proceed)

/-- `table[1]` for a row of `SHOW TABLES` (raises `IndexError` when the row
is too short, as Python indexing would). -/
def tableName (row : List String) : Except PyErr String :=
  match row.get? 1 with
  | some v => .ok v
  | none => .error ⟨"IndexError", "tuple index out of range"⟩

/-- Environment of one `test_connection` call: the clock, the behaviors of a
pending / fresh initialization, and the outcomes of the two introspection
queries (`SELECT CURRENT_ROLE(), CURRENT_DATABASE(), CURRENT_SCHEMA()`
followed by `fetchone` and unpacking, and `SHOW TABLES` followed by
`fetchall`). -/
structure TestEnv where
  now : Int
  pendingB : InitBehavior
  freshB : InitBehavior
  introspect : Except PyErr (String × String × String)
  showTables : Except PyErr (List (List String))

/-- `test_connection`: the whole body runs inside `try`, and
`except Exception as e` returns `(False, f"Connection test failed: {e}")`;
on success it returns `(True, <formatted report>)`. -/
def test_connection (env : TestEnv) (s : SnowflakeDB) :
    SnowflakeDB × (Bool × String) :=
  let r := ensureStep env.pendingB env.freshB env.now s
  let s1 := r.1
  match r.2.1 with
  | some e => (s1, (false, "Connection test failed: " ++ e.str))
  | none =>
  match env.introspect with
  | .error e => (s1, (false, "Connection test failed: " ++ e.str))
  | .ok rds =>
  match env.showTables with
  | .error e => (s1, (false, "Connection test failed: " ++ e.str))
  | .ok tables =>
  match tables.mapM tableName with
  | .error e => (s1, (false, "Connection test failed: " ++ e.str))
  | .ok table_list =>
      (s1, (true,
        "Connection successful!\nRole: " ++ rds.1 ++ "\nDatabase: " ++ rds.2.1
          ++ "\nSchema: " ++ rds.2.2 ++ "\n\nAvailable tables:\n"
          ++ String.intercalate "\n" (table_list.map (fun t => "- " ++ t))))

/-- `start_init_connection`: create the background task (pending) and store
its handle.  The task body runs later; its completion is the `initStep`
transition of `Reachable`. -/
def start_init_connection (s : SnowflakeDB) : SnowflakeDB :=
  { s with init_task := some false }

/-- The result set the driver delivers for one query: the column names of
`cursor.description` and the rows of `fetchall`. -/
structure QueryResult where
  columns : List String
  rows : List (List Value)

/-- `uuid.uuid4()` modelled as a fresh-identifier supply: draw `n` yields a
non-empty string, and distinct draws yield distinct strings. -/
def uuid4 (n : Nat) : String := String.mk (List.replicate (n + 1) 'u')

/-- Environment of one `execute_query` call: the clock, the behaviors of a
pending / fresh initialization, the outcome of
`cursor.execute(query)` / `cursor.description` / `fetchall`, and the uuid
draw index of this call. -/
structure ExecEnv where
  now : Int
  pendingB : InitBehavior
  freshB : InitBehavior
  qres : Except PyErr QueryResult
  uuidSrc : Nat

/-- `execute_query`: validity check (outside `try`, so an initialization
error propagates), then execute; a driver error during execution or
retrieval is logged and re-raised unchanged; on success the rows are zipped
into dicts and returned with a fresh `data_id`. -/
def execute_query (env : ExecEnv) (s : SnowflakeDB) :
    SnowflakeDB × Except PyErr (List PyDict × String) :=
  let r := ensureStep env.pendingB env.freshB env.now s
  let s1 := r.1
  match r.2.1 with
  | some e => (s1, .error e)
  | none =>
  match env.qres with
  | .error e => (s1, .error e)
  | .ok qr =>
      let columns := qr.columns
      let result_rows := qr.rows.map (fun row => dictOfZip columns row)
      let data_id := uuid4 env.uuidSrc
      (s1, .ok (result_rows, data_id))

/-- `add_insight`: append to `self.insights`. -/
def add_insight (s : SnowflakeDB) (insight : String) : SnowflakeDB :=
  { s with insights := s.insights ++ [insight] }

/-- `get_memo`: placeholder when empty; otherwise the header, the dashed
list of insights joined by newlines, and — only when more than one insight
is present — the summary sentence with the count. -/
def get_memo (s : SnowflakeDB) : String :=
  if s.insights = [] then "No data insights have been discovered yet."
  else
    let memo := "📊 Data Intelligence Memo 📊\n\n" ++ "Key Insights Discovered:\n\n"
      ++ String.intercalate "\n" (s.insights.map (fun insight => "- " ++ insight))
    if s.insights.length > 1 then
      memo ++ "\n\nSummary:\nAnalysis has revealed " ++ toString s.insights.length
        ++ " key data insights that suggest opportunities for strategic optimization and growth."
    else memo

/-- States reachable from construction through the public operations
(including completion of the background initialization task, which runs
`_init_database`). -/
inductive Reachable : SnowflakeDB → Prop where
| construct (config : List (String × String)) : Reachable (SnowflakeDB.new config)
| initStep (b : InitBehavior) (now : Int) (s : SnowflakeDB) :
    Reachable s → Reachable (init_database b now s).1
| testStep (env : TestEnv) (s : SnowflakeDB) :
    Reachable s → Reachable (test_connection env s).1
| execStep (env : ExecEnv) (s : SnowflakeDB) :
    Reachable s → Reachable (execute_query env s).1
| addStep (insight : String) (s : SnowflakeDB) :
    Reachable s → Reachable (add_insight s insight)
| startStep (s : SnowflakeDB) :
    Reachable s → Reachable (start_init_connection s)

/-! ## Case equations for `init_database` -/

/-- `_init_database` when `connect` raises: no handle or timestamp is
touched, the wrapped `ValueError` is raised. -/
theorem init_database_connect_error (b : InitBehavior) (now : Int)
    (s : SnowflakeDB) (e : PyErr) (h : b.connect (conn_params s) = .error e) :
    init_database b now s =
      ({ s with lastInitOk := some false },
       some ⟨"ValueError", "Failed to connect to Snowflake database: " ++ e.str⟩) := by
  unfold init_database
  rw [h]

/-- `_init_database` when `connect` succeeds but `cursor()` raises: the
connection handle was already replaced, cursor and timestamp were not. -/
theorem init_database_cursor_error (b : InitBehavior) (now : Int)
    (s : SnowflakeDB) (conn : Nat) (e : PyErr)
    (h : b.connect (conn_params s) = .ok conn) (h2 : b.cursorOf conn = .error e) :
    init_database b now s =
      ({ s with connection := some conn, lastInitOk := some false },
       some ⟨"ValueError", "Failed to connect to Snowflake database: " ++ e.str⟩) := by
  unfold init_database
  rw [h]
  simp only []
  rw [h2]

/-- `_init_database` when both driver calls succeed: connection, cursor and
`auth_time` are all replaced and no exception is raised. -/
theorem init_database_ok (b : InitBehavior) (now : Int)
    (s : SnowflakeDB) (conn cur : Nat)
    (h : b.connect (conn_params s) = .ok conn) (h2 : b.cursorOf conn = .ok cur) :
    init_database b now s =
      ({ s with connection := some conn, cursor := some cur, auth_time := now,
                everInitOk := true, lastInitOk := some true }, none) := by
  unfold init_database
  rw [h]
  simp only []
  rw [h2]

/-- `_init_database` never touches `insights`, `init_task` or the
configuration. -/
theorem init_database_frame (b : InitBehavior) (now : Int) (s : SnowflakeDB) :
    (init_database b now s).1.insights = s.insights
    ∧ (init_database b now s).1.init_task = s.init_task
    ∧ (init_database b now s).1.connection_config = s.connection_config := by
  cases h : b.connect (conn_params s) with
  | error e => rw [init_database_connect_error b now s e h]; exact ⟨rfl, rfl, rfl⟩
  | ok conn =>
      cases h2 : b.cursorOf conn with
      | error e2 => rw [init_database_cursor_error b now s conn e2 h h2]; exact ⟨rfl, rfl, rfl⟩
      | ok cur => rw [init_database_ok b now s conn cur h h2]; exact ⟨rfl, rfl, rfl⟩

/-- The validity check never touches `insights` or the configuration. -/
theorem ensureStep_frame (pB fB : InitBehavior) (now : Int) (s : SnowflakeDB) :
    (ensureStep pB fB now s).1.insights = s.insights
    ∧ (ensureStep pB fB now s).1.connection_config = s.connection_config := by
  unfold ensureStep
  split
  · exact ⟨(init_database_frame pB now s).1, (init_database_frame pB now s).2.2⟩
  · split
    · exact ⟨(init_database_frame fB now s).1, (init_database_frame fB now s).2.2⟩
    · exact ⟨rfl, rfl⟩

/-- `test_connection` leaves exactly the state produced by the validity
check: the introspection phase mutates nothing. -/
theorem test_connection_state (env : TestEnv) (s : SnowflakeDB) :
    (test_connection env s).1 = (ensureStep env.pendingB env.freshB env.now s).1 := by
  simp only [test_connection]
  split
  · rfl
  · split
    · rfl
    · split
      · rfl
      · split <;> rfl

/-- `execute_query` leaves exactly the state produced by the validity
check: the query phase mutates nothing. -/
theorem execute_query_state (env : ExecEnv) (s : SnowflakeDB) :
    (execute_query env s).1 = (ensureStep env.pendingB env.freshB env.now s).1 := by
  simp only [execute_query]
  split
  · rfl
  · split <;> rfl

/-- C7: Render Memo: on the empty log the fixed placeholder; on a
single-insight log the report lists that insight and carries no summary
sentence; on a log of two or more the report lists every insight in log
order followed by the summary sentence with the exact count. -/
theorem get_memo_spec (s : SnowflakeDB) :
    (s.insights = [] → get_memo s = "No data insights have been discovered yet.")
    ∧ (∀ i : String, s.insights = [i] →
        get_memo s =
          "📊 Data Intelligence Memo 📊\n\nKey Insights Discovered:\n\n" ++ ("- " ++ i))
    ∧ (2 ≤ s.insights.length →
        get_memo s =
          "📊 Data Intelligence Memo 📊\n\nKey Insights Discovered:\n\n"
            ++ String.intercalate "\n" (s.insights.map (fun insight => "- " ++ insight))
            ++ ("\n\nSummary:\nAnalysis has revealed " ++ toString s.insights.length
                ++ " key data insights that suggest opportunities for strategic optimization and growth.")) := by
  refine ⟨fun h => by simp [get_memo, h], fun i h => ?_, fun h => ?_⟩
  · have h1 : s.insights ≠ [] := by rw [h]; simp
    have h2 : ¬ s.insights.length > 1 := by rw [h]; simp
    simp only [get_memo, if_neg h1, if_neg h2, h]
    rfl
  · have hne : s.insights ≠ [] := by
      intro he
      rw [he] at h
      simp at h
    have hgt : s.insights.length > 1 := h
    simp only [get_memo, if_neg hne, if_pos hgt]
    simp [String.append_assoc]

/-- Witness for C7 at a concrete two-insight log. -/
theorem get_memo_spec_witness :
    get_memo { SnowflakeDB.new [] with insights := ["a", "b"] } =
      "📊 Data Intelligence Memo 📊\n\nKey Insights Discovered:\n\n"
        ++ String.intercalate "\n" (["a", "b"].map (fun insight => "- " ++ insight))
        ++ ("\n\nSummary:\nAnalysis has revealed " ++ toString ([ "a", "b"] : List String).length
            ++ " key data insights that suggest opportunities for strategic optimization and growth.") :=
  (get_memo_spec { SnowflakeDB.new [] with insights := ["a", "b"] }).2.2 (by decide)

/-- C9: the Insight Log is append-only: `add_insight` appends exactly the
given string, every other public operation leaves the log unchanged, and in
every case the old log is a prefix of the new one. -/
theorem insights_append_only (s : SnowflakeDB) (i : String) (b : InitBehavior)
    (now : Int) (tenv : TestEnv) (eenv : ExecEnv) :
    (add_insight s i).insights = s.insights ++ [i]
    ∧ (init_database b now s).1.insights = s.insights
    ∧ (test_connection tenv s).1.insights = s.insights
    ∧ (execute_query eenv s).1.insights = s.insights
    ∧ (start_init_connection s).insights = s.insights
    ∧ (∃ t, (add_insight s i).insights = s.insights ++ t)
    ∧ (∃ t, (init_database b now s).1.insights = s.insights ++ t)
    ∧ (∃ t, (test_connection tenv s).1.insights = s.insights ++ t)
    ∧ (∃ t, (execute_query eenv s).1.insights = s.insights ++ t)
    ∧ (∃ t, (start_init_connection s).insights = s.insights ++ t) := by
  have h1 : (init_database b now s).1.insights = s.insights := (init_database_frame b now s).1
  have h2 : (test_connection tenv s).1.insights = s.insights := by
    rw [test_connection_state]
    exact (ensureStep_frame tenv.pendingB tenv.freshB tenv.now s).1
  have h3 : (execute_query eenv s).1.insights = s.insights := by
    rw [execute_query_state]
    exact (ensureStep_frame eenv.pendingB eenv.freshB eenv.now s).1
  refine ⟨rfl, h1, h2, h3, rfl, ⟨[i], rfl⟩, ⟨[], by simp [h1]⟩, ⟨[], by simp [h2]⟩,
    ⟨[], by simp [h3]⟩, ⟨[], by simp [start_init_connection]⟩⟩

/-- A driver behavior whose calls all succeed (for concrete witnesses). -/
def bGood : InitBehavior :=
  { connect := fun _ => .ok 1, cursorOf := fun _ => .ok 1 }

/-- A driver behavior whose open-connection call raises (for concrete
witnesses: a configuration lacking required credentials). -/
def bBad : InitBehavior :=
  { connect := fun _ => .error ⟨"OperationalError", "missing credentials"⟩
    cursorOf := fun conn => .ok conn }

/-- A driver behavior whose open-connection call succeeds but whose
`cursor()` call raises. -/
def bBadCursor : InitBehavior :=
  { connect := fun _ => .ok 2
    cursorOf := fun _ => .error ⟨"OperationalError", "cursor failure"⟩ }

/-- Every error `_init_database` raises is of the single designated kind
(`ValueError` in the source). -/
theorem init_database_error_kind (b : InitBehavior) (now : Int) (s : SnowflakeDB) :
    ∀ e, (init_database b now s).2 = some e → e.kind = "ValueError" := by
  intro e he
  cases h : b.connect (conn_params s) with
  | error e2 =>
      rw [init_database_connect_error b now s e2 h] at he
      cases he
      rfl
  | ok conn =>
      cases h2 : b.cursorOf conn with
      | error e2 =>
          rw [init_database_cursor_error b now s conn e2 h h2] at he
          cases he
          rfl
      | ok cur =>
          rw [init_database_ok b now s conn cur h h2] at he
          cases he

/-- C6: when the driver's open-connection call raises (as for a
configuration lacking required credentials), `_init_database` fails and the
prior connection handle, cursor handle and authentication timestamp — and
the rest of the session state — are exactly as before the call. -/
theorem init_database_no_partial_mutation (b : InitBehavior) (now : Int)
    (s : SnowflakeDB) (e : PyErr) (h : b.connect (conn_params s) = .error e) :
    ((init_database b now s).2).isSome = true
    ∧ (init_database b now s).1.connection = s.connection
    ∧ (init_database b now s).1.cursor = s.cursor
    ∧ (init_database b now s).1.auth_time = s.auth_time
    ∧ (init_database b now s).1.insights = s.insights
    ∧ (init_database b now s).1.init_task = s.init_task := by
  rw [init_database_connect_error b now s e h]
  exact ⟨rfl, rfl, rfl, rfl, rfl, rfl⟩

/-- Witness for C6: a concrete rejected connection attempt on a fresh
object mutates nothing. -/
theorem init_database_no_partial_mutation_witness :
    ((init_database bBad 0 (SnowflakeDB.new [])).2).isSome = true
    ∧ (init_database bBad 0 (SnowflakeDB.new [])).1.connection = (SnowflakeDB.new []).connection
    ∧ (init_database bBad 0 (SnowflakeDB.new [])).1.cursor = (SnowflakeDB.new []).cursor
    ∧ (init_database bBad 0 (SnowflakeDB.new [])).1.auth_time = (SnowflakeDB.new []).auth_time
    ∧ (init_database bBad 0 (SnowflakeDB.new [])).1.insights = (SnowflakeDB.new []).insights
    ∧ (init_database bBad 0 (SnowflakeDB.new [])).1.init_task = (SnowflakeDB.new []).init_task :=
  init_database_no_partial_mutation bBad 0 (SnowflakeDB.new [])
    ⟨"OperationalError", "missing credentials"⟩ rfl

/-- C5: any driver failure during `_init_database` (connect rejected, or
cursor creation failed) surfaces as the single designated error kind
(`ValueError` in the source) whose message wraps — ends with — the text of
the original driver error. -/
theorem init_database_error_wrapped (b : InitBehavior) (now : Int)
    (s : SnowflakeDB) (orig : PyErr)
    (h : b.connect (conn_params s) = .error orig ∨
         ∃ conn, b.connect (conn_params s) = .ok conn ∧ b.cursorOf conn = .error orig) :
    (init_database b now s).2 =
      some ⟨"ValueError", "Failed to connect to Snowflake database: " ++ orig.str⟩
    ∧ (∀ e, (init_database b now s).2 = some e → e.kind = "ValueError")
    ∧ (∀ e, (init_database b now s).2 = some e →
        List.IsSuffix orig.str.data e.msg.data) := by
  have heq : (init_database b now s).2 =
      some ⟨"ValueError", "Failed to connect to Snowflake database: " ++ orig.str⟩ := by
    rcases h with h | ⟨conn, h, h2⟩
    · rw [init_database_connect_error b now s orig h]
    · rw [init_database_cursor_error b now s conn orig h h2]
  refine ⟨heq, init_database_error_kind b now s, fun e he => ?_⟩
  rw [heq] at he
  cases he
  exact ⟨("Failed to connect to Snowflake database: ").data,
    (String.data_append "Failed to connect to Snowflake database: " orig.str).symm⟩

/-- Witness for C5: a concrete rejected connection attempt raises the
wrapped error. -/
theorem init_database_error_wrapped_witness :
    (init_database bBad 3 (SnowflakeDB.new [])).2 =
      some ⟨"ValueError", "Failed to connect to Snowflake database: "
        ++ PyErr.str ⟨"OperationalError", "missing credentials"⟩⟩
    ∧ (∀ e, (init_database bBad 3 (SnowflakeDB.new [])).2 = some e → e.kind = "ValueError")
    ∧ (∀ e, (init_database bBad 3 (SnowflakeDB.new [])).2 = some e →
        List.IsSuffix (PyErr.str ⟨"OperationalError", "missing credentials"⟩).data e.msg.data) :=
  init_database_error_wrapped bBad 3 (SnowflakeDB.new [])
    ⟨"OperationalError", "missing credentials"⟩ (Or.inl rfl)

/-- When the validity check takes the `proceed` branch it changes nothing
and raises nothing. -/
theorem ensureStep_proceed (pB fB : InitBehavior) (now : Int) (s : SnowflakeDB) :
    (ensureStep pB fB now s).2.2 = EnsureAction.proceed →
    ensureStep pB fB now s = (s, none, EnsureAction.proceed) := by
  unfold ensureStep
  split
  · intro h
    simp at h
  · split
    · intro h
      simp at h
    · intro _
      rfl

/-- C4: when the validity check passes and the driver then raises during
SQL execution or result retrieval, `execute_query` re-raises that same
error; its final state is exactly the post-check state (no retry, and no
re-initialization within the failing call — in particular a call that
needed no initialization leaves the state untouched). -/
theorem execute_query_propagates_error (env : ExecEnv) (s : SnowflakeDB) (e : PyErr)
    (hinit : (ensureStep env.pendingB env.freshB env.now s).2.1 = none)
    (hq : env.qres = .error e) :
    execute_query env s = ((ensureStep env.pendingB env.freshB env.now s).1, .error e)
    ∧ ((ensureStep env.pendingB env.freshB env.now s).2.2 = EnsureAction.proceed →
        (execute_query env s).1 = s) := by
  constructor
  · simp only [execute_query, hinit, hq]
  · intro hp
    rw [execute_query_state env s, ensureStep_proceed env.pendingB env.freshB env.now s hp]

/-- The first failing step of a `test_connection` call, in program order:
the validity check, the role/database/schema introspection, `SHOW TABLES`,
or the extraction of the table names. -/
def testFirstError (env : TestEnv) (s : SnowflakeDB) : Option PyErr :=
  match (ensureStep env.pendingB env.freshB env.now s).2.1 with
  | some e => some e
  | none =>
  match env.introspect with
  | .error e => some e
  | .ok _ =>
  match env.showTables with
  | .error e => some e
  | .ok tables =>
  match tables.mapM tableName with
  | .error e => some e
  | .ok _ => none

/-- C2: `test_connection` never raises: it always returns a
`(success, message)` pair; the flag is `true` exactly when no step failed,
and when any step fails the result is `false` with a message that contains
(ends with) the text of that error. -/
theorem test_connection_total (env : TestEnv) (s : SnowflakeDB) :
    ((test_connection env s).2.1 = true ↔ testFirstError env s = none)
    ∧ ∀ e, testFirstError env s = some e →
        (test_connection env s).2 = (false, "Connection test failed: " ++ e.str)
        ∧ List.IsSuffix e.str.data (test_connection env s).2.2.data := by
  have key : (testFirstError env s = none → (test_connection env s).2.1 = true)
      ∧ ∀ e, testFirstError env s = some e →
          (test_connection env s).2 = (false, "Connection test failed: " ++ e.str) := by
    simp only [test_connection, testFirstError]
    cases h1 : (ensureStep env.pendingB env.freshB env.now s).2.1 with
    | some e0 =>
        dsimp only
        refine ⟨?_, ?_⟩
        · intro h
          cases h
        · intro e he
          cases he
          rfl
    | none =>
        dsimp only
        cases h2 : env.introspect with
        | error e0 =>
            dsimp only
            refine ⟨?_, ?_⟩
            · intro h
              cases h
            · intro e he
              cases he
              rfl
        | ok rds =>
            dsimp only
            cases h3 : env.showTables with
            | error e0 =>
                dsimp only
                refine ⟨?_, ?_⟩
                · intro h
                  cases h
                · intro e he
                  cases he
                  rfl
            | ok tables =>
                dsimp only
                cases h4 : tables.mapM tableName with
                | error e0 =>
                    dsimp only
                    refine ⟨?_, ?_⟩
                    · intro h
                      cases h
                    · intro e he
                      cases he
                      rfl
                | ok tl =>
                    dsimp only
                    refine ⟨?_, ?_⟩
                    · intro _
                      rfl
                    · intro e he
                      cases he
  constructor
  · constructor
    · intro ht
      cases hf : testFirstError env s with
      | none => rfl
      | some e =>
          have := (key.2 e hf)
          rw [this] at ht
          cases ht
    · exact key.1
  · intro e he
    refine ⟨key.2 e he, ?_⟩
    rw [key.2 e he]
    exact ⟨("Connection test failed: ").data,
      (String.data_append "Connection test failed: " e.str).symm⟩

/-- A concrete `test_connection` environment whose introspection query
raises. -/
def tenvFail : TestEnv :=
  { now := 0
    pendingB := bGood
    freshB := bGood
    introspect := .error ⟨"ProgrammingError", "bad role"⟩
    showTables := .ok [] }

/-- Witness for C2: on a driver raising during introspection, the call
returns `false` with the wrapped message rather than raising. -/
theorem test_connection_total_witness :
    (test_connection tenvFail (SnowflakeDB.new [])).2 =
      (false, "Connection test failed: " ++ PyErr.str ⟨"ProgrammingError", "bad role"⟩)
    ∧ List.IsSuffix (PyErr.str ⟨"ProgrammingError", "bad role"⟩).data
        (test_connection tenvFail (SnowflakeDB.new [])).2.2.data :=
  (test_connection_total tenvFail (SnowflakeDB.new [])).2
    ⟨"ProgrammingError", "bad role"⟩ rfl

/-- When no initialization is pending, a connection exists and the
authentication window has not lapsed, the validity check changes nothing. -/
theorem ensureStep_proceed_of (pB fB : InitBehavior) (now : Int) (s : SnowflakeDB)
    (h1 : s.init_task ≠ some false) (h2 : s.connection ≠ none)
    (h3 : ¬ now - s.auth_time > AUTH_EXPIRATION_TIME) :
    ensureStep pB fB now s = (s, none, EnsureAction.proceed) := by
  unfold ensureStep
  rw [if_neg h1, if_neg (by push_neg; exact ⟨h2, by omega⟩)]

/-- C1: both public calls perform exactly the validity check `ensureStep`;
a pending initialization is awaited and no new one is started (the
fresh-init behavior is never consulted); otherwise a fresh initialization
is triggered iff no connection handle exists or the time since the last
authentication exceeds 1800 seconds; and after a successful initialization
(which stamps `auth_time` with the call time) a call within 1800 seconds
with no initialization pending takes the `proceed` branch — no
re-initialization. -/
theorem session_validity_check (pB fB : InitBehavior) (now : Int) (s : SnowflakeDB) :
    ((∀ env : ExecEnv,
        (execute_query env s).1 = (ensureStep env.pendingB env.freshB env.now s).1)
      ∧ (∀ env : TestEnv,
        (test_connection env s).1 = (ensureStep env.pendingB env.freshB env.now s).1))
    ∧ (s.init_task = some false →
        (ensureStep pB fB now s).2.2 = EnsureAction.awaitedPending
        ∧ (∀ fB2 : InitBehavior, ensureStep pB fB2 now s = ensureStep pB fB now s))
    ∧ (s.init_task ≠ some false →
        ((ensureStep pB fB now s).2.2 = EnsureAction.freshInit
          ↔ (s.connection = none ∨ now - s.auth_time > AUTH_EXPIRATION_TIME)))
    ∧ (∀ (b : InitBehavior) (t0 : Int),
        (init_database b t0 s).2 = none →
        (init_database b t0 s).1.auth_time = t0
        ∧ ∀ now2 : Int, now2 - t0 ≤ AUTH_EXPIRATION_TIME →
            (init_database b t0 s).1.init_task ≠ some false →
            ∀ pB2 fB2 : InitBehavior,
              (ensureStep pB2 fB2 now2 (init_database b t0 s).1).2.2
                = EnsureAction.proceed) := by
  refine ⟨⟨fun env => execute_query_state env s, fun env => test_connection_state env s⟩,
    fun hp => ?_, fun hnp => ?_, fun b t0 hok => ?_⟩
  · constructor
    · unfold ensureStep
      rw [if_pos hp]
    · intro fB2
      unfold ensureStep
      rw [if_pos hp, if_pos hp]
  · unfold ensureStep
    rw [if_neg hnp]
    by_cases hc : s.connection = none ∨ now - s.auth_time > AUTH_EXPIRATION_TIME
    · rw [if_pos hc]
      exact ⟨fun _ => hc, fun _ => rfl⟩
    · rw [if_neg hc]
      constructor
      · intro h
        cases h
      · intro h
        exact absurd h hc
  · obtain ⟨conn, hcon, cur, hcur⟩ : ∃ conn, b.connect (conn_params s) = .ok conn
        ∧ ∃ cur, b.cursorOf conn = .ok cur := by
      cases hcn : b.connect (conn_params s) with
      | error e =>
          rw [init_database_connect_error b t0 s e hcn] at hok
          cases hok
      | ok conn =>
          cases hcr : b.cursorOf conn with
          | error e =>
              rw [init_database_cursor_error b t0 s conn e hcn hcr] at hok
              cases hok
          | ok cur => exact ⟨conn, rfl, cur, hcr⟩
    have hfields := init_database_ok b t0 s conn cur hcon hcur
    refine ⟨by rw [hfields], fun now2 hwin hnp2 pB2 fB2 => ?_⟩
    have h2conn : (init_database b t0 s).1.connection ≠ none := by
      rw [hfields]
      simp
    have h3t : ¬ now2 - (init_database b t0 s).1.auth_time > AUTH_EXPIRATION_TIME := by
      rw [hfields]
      dsimp only
      omega
    rw [ensureStep_proceed_of pB2 fB2 now2 (init_database b t0 s).1 hnp2 h2conn h3t]

/-- Witness for C1: a concrete successful initialization at time 0 followed
by calls within the window proceeds without re-initialization. -/
theorem session_validity_check_witness :
    (init_database bGood 0 (SnowflakeDB.new [])).1.auth_time = 0
    ∧ ∀ now2 : Int, now2 - 0 ≤ AUTH_EXPIRATION_TIME →
        (init_database bGood 0 (SnowflakeDB.new [])).1.init_task ≠ some false →
        ∀ pB2 fB2 : InitBehavior,
          (ensureStep pB2 fB2 now2 (init_database bGood 0 (SnowflakeDB.new [])).1).2.2
            = EnsureAction.proceed :=
  (session_validity_check bGood bGood 0 (SnowflakeDB.new [])).2.2.2 bGood 0 rfl

/-- A concrete `execute_query` environment whose SQL execution raises. -/
def eenvFail : ExecEnv :=
  { now := 0
    pendingB := bGood
    freshB := bGood
    qres := .error ⟨"ProgrammingError", "syntax error"⟩
    uuidSrc := 0 }

/-- Witness for C4: a concrete failing query is re-raised unchanged. -/
theorem execute_query_propagates_error_witness :
    execute_query eenvFail (SnowflakeDB.new []) =
      ((ensureStep eenvFail.pendingB eenvFail.freshB eenvFail.now (SnowflakeDB.new [])).1,
        .error ⟨"ProgrammingError", "syntax error"⟩)
    ∧ ((ensureStep eenvFail.pendingB eenvFail.freshB eenvFail.now
          (SnowflakeDB.new [])).2.2 = EnsureAction.proceed →
        (execute_query eenvFail (SnowflakeDB.new [])).1 = SnowflakeDB.new []) :=
  execute_query_propagates_error eenvFail (SnowflakeDB.new [])
    ⟨"ProgrammingError", "syntax error"⟩ rfl rfl

/-! ## Python `dict` lemmas -/

/-- Looking a key up in a cons cell. -/
theorem dictLookup_cons (p : String × Value) (d : PyDict) (c : String) :
    dictLookup (p :: d) c = if p.1 = c then some p.2 else dictLookup d c := by
  by_cases h : p.1 = c
  · simp [dictLookup, List.find?_cons, h]
  · simp [dictLookup, List.find?_cons, h]

/-- Looking a key up in an appended dict. -/
theorem dictLookup_append (d1 d2 : PyDict) (c : String) :
    dictLookup (d1 ++ d2) c = (dictLookup d1 c).or (dictLookup d2 c) := by
  induction d1 with
  | nil => simp [dictLookup]
  | cons q rest ih =>
      by_cases h : q.1 = c
      · simp [List.cons_append, dictLookup_cons, h]
      · simp [List.cons_append, dictLookup_cons, h, ih]

/-- Updating the entry of key `k` in place: looking `k` up yields the new
value (provided the key is present). -/
theorem dictLookup_map_self (d : PyDict) (k : String) (v : Value)
    (hmem : d.any (fun p => p.1 = k) = true) :
    dictLookup (d.map (fun p => if p.1 = k then (k, v) else p)) k = some v := by
  induction d with
  | nil => cases hmem
  | cons q rest ih =>
      by_cases hq : q.1 = k
      · simp [List.map_cons, if_pos hq, dictLookup_cons]
      · have hrest : rest.any (fun p => p.1 = k) = true := by
          simp only [List.any_cons, Bool.or_eq_true, decide_eq_true_eq] at hmem
          rcases hmem with h | h
          · exact absurd h hq
          · exact h
        simp [List.map_cons, if_neg hq, dictLookup_cons, hq, ih hrest]

/-- Updating the entry of key `k` in place does not change other keys. -/
theorem dictLookup_map_ne (d : PyDict) (k c : String) (v : Value) (h : c ≠ k) :
    dictLookup (d.map (fun p => if p.1 = k then (k, v) else p)) c = dictLookup d c := by
  induction d with
  | nil => rfl
  | cons q rest ih =>
      by_cases hq : q.1 = k
      · have hkc : ¬ (k = c) := fun he => h he.symm
        have hqc : ¬ (q.1 = c) := by
          rw [hq]
          exact hkc
        simp [List.map_cons, if_pos hq, dictLookup_cons, hkc, hqc, ih]
      · by_cases hqc : q.1 = c
        · simp [List.map_cons, if_neg hq, dictLookup_cons, hqc, h]
        · simp [List.map_cons, if_neg hq, dictLookup_cons, hqc, ih]

/-- The characteristic equation of Python `dict` insertion. -/
theorem dictLookup_dictInsert (d : PyDict) (k c : String) (v : Value) :
    dictLookup (dictInsert d k v) c = if c = k then some v else dictLookup d c := by
  unfold dictInsert
  by_cases hmem : d.any (fun p => p.1 = k) = true
  · rw [if_pos hmem]
    by_cases hck : c = k
    · subst hck
      rw [if_pos rfl]
      exact dictLookup_map_self d c v hmem
    · rw [if_neg hck]
      exact dictLookup_map_ne d k c v hck
  · rw [if_neg hmem]
    rw [dictLookup_append]
    by_cases hck : c = k
    · subst hck
      have hnone : dictLookup d c = none := by
        unfold dictLookup
        have : d.find? (fun p => p.1 = c) = none := by
          rw [List.find?_eq_none]
          intro p hp
          simp only [decide_eq_true_eq]
          intro hpc
          exact hmem (List.any_eq_true.mpr ⟨p, hp, by simp [hpc]⟩)
        rw [this]
        rfl
      rw [hnone, if_pos rfl]
      simp [dictLookup_cons]
    · rw [if_neg hck]
      have hkc : ¬ (k = c) := fun he => hck he.symm
      have h2 : dictLookup [(k, v)] c = none := by
        simp [dictLookup_cons, hkc, dictLookup]
      rw [h2]
      cases dictLookup d c <;> rfl

/-- Folding pairs into a dict: each key ends bound to the rightmost
incoming value for it, or keeps its prior binding. -/
theorem dictLookup_foldl (pairs : List (String × Value)) (acc : PyDict) (c : String) :
    dictLookup (pairs.foldl (fun d p => dictInsert d p.1 p.2) acc) c
      = pairs.foldl (fun o p => if p.1 = c then some p.2 else o) (dictLookup acc c) := by
  induction pairs generalizing acc with
  | nil => rfl
  | cons p rest ih =>
      simp only [List.foldl_cons]
      rw [ih]
      have : dictLookup (dictInsert acc p.1 p.2) c
          = if p.1 = c then some p.2 else dictLookup acc c := by
        rw [dictLookup_dictInsert]
        by_cases h : p.1 = c
        · rw [if_pos h, if_pos h.symm]
        · rw [if_neg h, if_neg (fun he => h he.symm)]
      rw [this]

/-- The rightmost-binding fold equals a `find?` on the reversed pairs. -/
theorem foldl_last_binding (pairs : List (String × Value)) (c : String) (o : Option Value) :
    pairs.foldl (fun o p => if p.1 = c then some p.2 else o) o
      = ((pairs.reverse.find? (fun p => p.1 = c)).map (fun p => p.2)).or o := by
  induction pairs generalizing o with
  | nil => simp
  | cons p rest ih =>
      simp only [List.foldl_cons, List.reverse_cons]
      rw [ih, List.find?_append]
      cases hf : rest.reverse.find? (fun p => p.1 = c) with
      | some q => simp
      | none =>
          by_cases h : p.1 = c
          · simp [h]
          · simp [h]

/-- `dict(zip(columns, row))[c]` is the value of the rightmost column named
`c` (none when no such column survives the zip). -/
theorem dictOfZip_lookup (cols : List String) (row : List Value) (c : String) :
    dictLookup (dictOfZip cols row) c
      = ((cols.zip row).reverse.find? (fun p => p.1 = c)).map (fun p => p.2) := by
  unfold dictOfZip
  rw [dictLookup_foldl]
  have h0 : dictLookup [] c = none := rfl
  rw [h0, foldl_last_binding]
  cases ((cols.zip row).reverse.find? (fun p => p.1 = c)).map (fun p => p.2) <;> rfl

/-- Inserting into a dict adds the key at the end only when it is new. -/
theorem dictInsert_keys (d : PyDict) (k : String) (v : Value) :
    (dictInsert d k v).map Prod.fst
      = if d.any (fun p => p.1 = k) then d.map Prod.fst else d.map Prod.fst ++ [k] := by
  unfold dictInsert
  by_cases h : d.any (fun p => p.1 = k) = true
  · rw [if_pos h, if_pos h, List.map_map]
    apply List.map_congr_left
    intro p _
    by_cases hpk : p.1 = k
    · simp [hpk]
    · simp [hpk]
  · rw [if_neg h, if_neg h]
    simp

/-- Having an entry with key `k` is having `k` among the keys. -/
theorem any_key_eq_mem (d : PyDict) (k : String) :
    d.any (fun p => p.1 = k) = true ↔ k ∈ d.map Prod.fst := by
  simp only [List.any_eq_true, List.mem_map, decide_eq_true_eq]

/-- First-occurrence ordered de-duplication (the key order of a Python
`dict` built by repeated insertion). -/
def keysFold : List String → List String → List String
  | ks, [] => ks
  | ks, k :: rest => keysFold (if k ∈ ks then ks else ks ++ [k]) rest

/-- The keys of a fold of insertions are the ordered de-duplication of the
incoming keys appended to the accumulator keys. -/
theorem foldl_insert_keys (pairs : List (String × Value)) (acc : PyDict) :
    (pairs.foldl (fun d p => dictInsert d p.1 p.2) acc).map Prod.fst
      = keysFold (acc.map Prod.fst) (pairs.map Prod.fst) := by
  induction pairs generalizing acc with
  | nil => rfl
  | cons p rest ih =>
      simp only [List.foldl_cons, List.map_cons, keysFold]
      rw [ih]
      congr 1
      rw [dictInsert_keys]
      by_cases h : acc.any (fun q => q.1 = p.1) = true
      · rw [if_pos h, if_pos ((any_key_eq_mem acc p.1).mp h)]
      · rw [if_neg h, if_neg (fun hm => h ((any_key_eq_mem acc p.1).mpr hm))]

/-- `keysFold` preserves freedom from duplicates. -/
theorem keysFold_nodup (incoming : List String) (ks : List String) (h : ks.Nodup) :
    (keysFold ks incoming).Nodup := by
  induction incoming generalizing ks with
  | nil => exact h
  | cons k rest ih =>
      simp only [keysFold]
      by_cases hk : k ∈ ks
      · rw [if_pos hk]
        exact ih ks h
      · rw [if_neg hk]
        exact ih _ (by simp [List.nodup_append, h, hk])

/-- Membership in a `keysFold`. -/
theorem keysFold_mem (incoming : List String) (ks : List String) (x : String) :
    x ∈ keysFold ks incoming ↔ x ∈ ks ∨ x ∈ incoming := by
  induction incoming generalizing ks with
  | nil => simp [keysFold]
  | cons k rest ih =>
      simp only [keysFold]
      by_cases hk : k ∈ ks
      · rw [if_pos hk, ih]
        constructor
        · rintro (h | h)
          · exact Or.inl h
          · exact Or.inr (List.mem_cons_of_mem k h)
        · rintro (h | h)
          · exact Or.inl h
          · rcases List.mem_cons.mp h with h | h
            · exact Or.inl (h ▸ hk)
            · exact Or.inr h
      · rw [if_neg hk, ih]
        simp only [List.mem_append, List.mem_singleton, List.mem_cons]
        tauto

/-- When the incoming keys are distinct and new, folding in insertions is
plain appending (so a Python dict built from distinct keys is the pair list
itself, in column order). -/
theorem foldl_insert_nodup (pairs : List (String × Value)) (acc : PyDict)
    (h1 : (pairs.map Prod.fst).Nodup)
    (h2 : ∀ p ∈ pairs, acc.any (fun q => q.1 = p.1) = false) :
    pairs.foldl (fun d p => dictInsert d p.1 p.2) acc = acc ++ pairs := by
  induction pairs generalizing acc with
  | nil => simp
  | cons p rest ih =>
      simp only [List.foldl_cons]
      have hins : dictInsert acc p.1 p.2 = acc ++ [p] := by
        unfold dictInsert
        rw [if_neg (by rw [h2 p (List.mem_cons_self p rest)]; exact Bool.false_ne_true)]
      rw [hins]
      have hnd : (rest.map Prod.fst).Nodup := by
        simp only [List.map_cons, List.nodup_cons] at h1
        exact h1.2
      have hhd : p.1 ∉ rest.map Prod.fst := by
        simp only [List.map_cons, List.nodup_cons] at h1
        exact h1.1
      rw [ih (acc ++ [p]) hnd ?_, List.append_assoc]
      · rfl
      · intro q hq
        rw [List.any_append]
        have hq1 : acc.any (fun r => r.1 = q.1) = false :=
          h2 q (List.mem_cons_of_mem p hq)
        have hq2 : List.any [p] (fun r => r.1 = q.1) = false := by
          simp only [List.any_cons, List.any_nil, Bool.or_false, decide_eq_false_iff_not]
          intro he
          exact hhd (he ▸ List.mem_map_of_mem Prod.fst hq)
        rw [hq1, hq2]
        rfl

/-- With pairwise-distinct column names and one value per column,
`dict(zip(columns, row))` is the zipped pair list itself. -/
theorem dictOfZip_eq_zip (cols : List String) (row : List Value)
    (hnd : cols.Nodup) (hlen : row.length = cols.length) :
    dictOfZip cols row = cols.zip row := by
  unfold dictOfZip
  have hkeys : (cols.zip row).map Prod.fst = cols :=
    List.map_fst_zip cols row (by omega)
  rw [foldl_insert_nodup (cols.zip row) [] (by rw [hkeys]; exact hnd)
    (fun p _ => rfl)]
  rfl

/-- With distinct column names, the mapping sends the `j`-th column name to
the `j`-th value of the row. -/
theorem dictLookup_zip_nodup (cols : List String) (row : List Value)
    (hnd : cols.Nodup) (j : Nat) (hj : j < cols.length) (hjr : j < row.length) :
    dictLookup (cols.zip row) (cols.get ⟨j, hj⟩) = row.get? j := by
  induction cols generalizing row j with
  | nil => exact absurd hj (Nat.not_lt_zero j)
  | cons c0 cs ih =>
      cases row with
      | nil => exact absurd hjr (Nat.not_lt_zero j)
      | cons r0 rs =>
          cases j with
          | zero => simp [List.zip_cons_cons, dictLookup_cons]
          | succ j =>
              have hc0 : c0 ∉ cs := (List.nodup_cons.mp hnd).1
              have hget : (c0 :: cs).get ⟨j + 1, hj⟩
                  = cs.get ⟨j, Nat.lt_of_succ_lt_succ hj⟩ := rfl
              have hne : ¬ c0 = cs.get ⟨j, Nat.lt_of_succ_lt_succ hj⟩ := by
                intro he
                exact hc0 (he ▸ (cs.get_mem j (Nat.lt_of_succ_lt_succ hj)))
              rw [hget]
              rw [List.zip_cons_cons, dictLookup_cons, if_neg hne]
              exact ih rs (List.nodup_cons.mp hnd).2 j
                (Nat.lt_of_succ_lt_succ hj) (Nat.lt_of_succ_lt_succ hjr)

/-- The fresh-identifier supply never yields the empty string. -/
theorem uuid4_ne_empty (n : Nat) : uuid4 n ≠ "" := by
  unfold uuid4
  intro h
  have hd := congrArg String.data h
  simp at hd

/-- Distinct draws from the fresh-identifier supply are distinct. -/
theorem uuid4_inj (m n : Nat) (h : m ≠ n) : uuid4 m ≠ uuid4 n := by
  unfold uuid4
  intro he
  have hd := congrArg (fun s => s.data.length) he
  simp at hd
  exact h hd

/-- A concrete `execute_query` environment with duplicate column names. -/
def eenvDup : ExecEnv :=
  { now := 0
    pendingB := bGood
    freshB := bGood
    qres := .ok ⟨["a", "a"], [[Value.int 1, Value.int 2]]⟩
    uuidSrc := 0 }

/-- Counterexample to C3 as stated: on columns `["a", "a"]` and the row
`(1, 2)` the returned mapping is `{"a": 2}` — it does not send the first
column name to the first value `1`, so not every column `cj` is sent to the
`j`-th value. -/
theorem execute_query_dup_cex :
    (execute_query eenvDup (SnowflakeDB.new [])).2
      = .ok ([[("a", Value.int 2)]], uuid4 0)
    ∧ ¬ dictLookup [("a", Value.int 2)] "a" = some (Value.int 1) := by
  constructor
  · rfl
  · decide

/-- C3 (amended: pairwise-distinct column names, one value per column):
`execute_query` returns one mapping per row, each sending the `j`-th column
name to the `j`-th value in column order, together with a fresh non-empty
identifier, and distinct draws never repeat an identifier. -/
theorem execute_query_result_spec (env : ExecEnv) (s : SnowflakeDB)
    (cols : List String) (rows : List (List Value))
    (hinit : (ensureStep env.pendingB env.freshB env.now s).2.1 = none)
    (hq : env.qres = .ok ⟨cols, rows⟩)
    (hnd : cols.Nodup)
    (hrect : ∀ row ∈ rows, row.length = cols.length) :
    (execute_query env s).2
      = .ok (rows.map (fun row => cols.zip row), uuid4 env.uuidSrc)
    ∧ (∀ row ∈ rows, ∀ (j : Nat) (hj : j < cols.length),
        dictLookup (dictOfZip cols row) (cols.get ⟨j, hj⟩) = row.get? j
        ∧ (row.get? j).isSome = true)
    ∧ uuid4 env.uuidSrc ≠ ""
    ∧ (∀ m : Nat, m ≠ env.uuidSrc → uuid4 m ≠ uuid4 env.uuidSrc) := by
  refine ⟨?_, ?_, uuid4_ne_empty env.uuidSrc, fun m hm => uuid4_inj m env.uuidSrc hm⟩
  · have hbase : (execute_query env s).2
        = .ok (rows.map (fun row => dictOfZip cols row), uuid4 env.uuidSrc) := by
      simp only [execute_query, hinit, hq]
    rw [hbase]
    have : rows.map (fun row => dictOfZip cols row)
        = rows.map (fun row => cols.zip row) := by
      apply List.map_congr_left
      intro row hrow
      exact dictOfZip_eq_zip cols row hnd (hrect row hrow)
    rw [this]
  · intro row hrow j hj
    have hjr : j < row.length := by
      rw [hrect row hrow]
      exact hj
    refine ⟨?_, ?_⟩
    · rw [dictOfZip_eq_zip cols row hnd (hrect row hrow)]
      exact dictLookup_zip_nodup cols row hnd j hj hjr
    · rw [List.get?_eq_get hjr]
      rfl

/-- A concrete `execute_query` environment with distinct column names. -/
def eenvRows : ExecEnv :=
  { now := 0
    pendingB := bGood
    freshB := bGood
    qres := .ok ⟨["id", "name"],
      [[Value.int 1, Value.str "a"], [Value.int 2, Value.str "b"]]⟩
    uuidSrc := 1 }

/-- Witness for C3 (amended) at the spec's own example result set. -/
theorem execute_query_result_spec_witness :
    (execute_query eenvRows (SnowflakeDB.new [])).2
      = .ok (([[Value.int 1, Value.str "a"], [Value.int 2, Value.str "b"]]).map
          (fun row => (["id", "name"]).zip row), uuid4 eenvRows.uuidSrc)
    ∧ (∀ row ∈ [[Value.int 1, Value.str "a"], [Value.int 2, Value.str "b"]],
        ∀ (j : Nat) (hj : j < (["id", "name"] : List String).length),
        dictLookup (dictOfZip ["id", "name"] row)
            ((["id", "name"] : List String).get ⟨j, hj⟩) = row.get? j
        ∧ (row.get? j).isSome = true)
    ∧ uuid4 eenvRows.uuidSrc ≠ ""
    ∧ (∀ m : Nat, m ≠ eenvRows.uuidSrc → uuid4 m ≠ uuid4 eenvRows.uuidSrc) :=
  execute_query_result_spec eenvRows (SnowflakeDB.new []) ["id", "name"]
    [[Value.int 1, Value.str "a"], [Value.int 2, Value.str "b"]]
    rfl rfl (by decide) (by decide)

/-- C10: when a column name is duplicated, each returned row mapping holds
that name exactly once, bound to the rightmost column of that name, and has
fewer entries than there are columns. -/
theorem execute_query_duplicate_cols (env : ExecEnv) (s : SnowflakeDB)
    (cols : List String) (rows : List (List Value))
    (hinit : (ensureStep env.pendingB env.freshB env.now s).2.1 = none)
    (hq : env.qres = .ok ⟨cols, rows⟩)
    (hrect : ∀ row ∈ rows, row.length = cols.length)
    (c : String) (hdup : 2 ≤ cols.count c) :
    (execute_query env s).2
      = .ok (rows.map (fun row => dictOfZip cols row), uuid4 env.uuidSrc)
    ∧ ∀ row ∈ rows,
        ((dictOfZip cols row).map Prod.fst).count c = 1
        ∧ dictLookup (dictOfZip cols row) c
            = ((cols.zip row).reverse.find? (fun p => p.1 = c)).map (fun p => p.2)
        ∧ (dictOfZip cols row).length < cols.length := by
  constructor
  · simp only [execute_query, hinit, hq]
  · intro row hrow
    have hkeys : (dictOfZip cols row).map Prod.fst = keysFold [] cols := by
      unfold dictOfZip
      rw [foldl_insert_keys]
      have hz : (cols.zip row).map Prod.fst = cols :=
        List.map_fst_zip cols row (by
          have := hrect row hrow
          omega)
      rw [hz]
      rfl
    have hnodup : (keysFold [] cols).Nodup := keysFold_nodup cols [] List.nodup_nil
    have hmem : ∀ x, x ∈ keysFold [] cols ↔ x ∈ cols := by
      intro x
      rw [keysFold_mem]
      simp
    have hcmem : c ∈ cols := by
      by_contra hc
      rw [List.count_eq_zero_of_not_mem hc] at hdup
      omega
    refine ⟨?_, dictOfZip_lookup cols row c, ?_⟩
    · rw [hkeys]
      exact List.count_eq_one_of_mem hnodup ((hmem c).mpr hcmem)
    · have hlen1 : (dictOfZip cols row).length = (keysFold [] cols).length := by
        rw [← hkeys, List.length_map]
      have hnotnodup : ¬ cols.Nodup := by
        intro hn
        have := List.nodup_iff_count_le_one.mp hn c
        omega
      have hperm : (keysFold [] cols).Perm cols.dedup := by
        apply List.perm_of_nodup_nodup_toFinset_eq hnodup (List.nodup_dedup cols)
        ext x
        simp only [List.mem_toFinset, hmem x, List.mem_dedup]
      have hdlt : cols.dedup.length < cols.length := by
        have hsub := List.dedup_sublist cols
        have hle := hsub.length_le
        rcases Nat.lt_or_ge cols.dedup.length cols.length with h | h
        · exact h
        · have heq : cols.dedup.length = cols.length := Nat.le_antisymm hle h
          exact absurd (List.dedup_eq_self.mp (hsub.eq_of_length heq)) hnotnodup
      rw [hlen1, hperm.length_eq]
      exact hdlt

/-- Witness for C10 at columns `["a", "a"]` and row `(1, 2)`. -/
theorem execute_query_duplicate_cols_witness :
    (execute_query eenvDup (SnowflakeDB.new [])).2
      = .ok (([[Value.int 1, Value.int 2]]).map
          (fun row => dictOfZip ["a", "a"] row), uuid4 eenvDup.uuidSrc)
    ∧ ∀ row ∈ [[Value.int 1, Value.int 2]],
        ((dictOfZip ["a", "a"] row).map Prod.fst).count "a" = 1
        ∧ dictLookup (dictOfZip ["a", "a"] row) "a"
            = (((["a", "a"] : List String).zip row).reverse.find?
                (fun p => p.1 = "a")).map (fun p => p.2)
        ∧ (dictOfZip ["a", "a"] row).length < (["a", "a"] : List String).length :=
  execute_query_duplicate_cols eenvDup (SnowflakeDB.new []) ["a", "a"]
    [[Value.int 1, Value.int 2]] rfl rfl (by decide) "a" (by decide)

/-- `_init_database` preserves the amended cursor invariant. -/
theorem init_database_cursorInv (b : InitBehavior) (now : Int) (s : SnowflakeDB)
    (h : (s.cursor.isSome = true ↔ s.everInitOk = true)
      ∧ (s.cursor.isSome = true → s.connection.isSome = true)) :
    ((init_database b now s).1.cursor.isSome = true
      ↔ (init_database b now s).1.everInitOk = true)
    ∧ ((init_database b now s).1.cursor.isSome = true
      → (init_database b now s).1.connection.isSome = true) := by
  cases hc : b.connect (conn_params s) with
  | error e =>
      rw [init_database_connect_error b now s e hc]
      exact h
  | ok conn =>
      cases hcr : b.cursorOf conn with
      | error e =>
          rw [init_database_cursor_error b now s conn e hc hcr]
          exact ⟨h.1, fun _ => rfl⟩
      | ok cur =>
          rw [init_database_ok b now s conn cur hc hcr]
          exact ⟨by simp, fun _ => rfl⟩

/-- The validity check preserves the amended cursor invariant. -/
theorem ensureStep_cursorInv (pB fB : InitBehavior) (now : Int) (s : SnowflakeDB)
    (h : (s.cursor.isSome = true ↔ s.everInitOk = true)
      ∧ (s.cursor.isSome = true → s.connection.isSome = true)) :
    ((ensureStep pB fB now s).1.cursor.isSome = true
      ↔ (ensureStep pB fB now s).1.everInitOk = true)
    ∧ ((ensureStep pB fB now s).1.cursor.isSome = true
      → (ensureStep pB fB now s).1.connection.isSome = true) := by
  unfold ensureStep
  split
  · exact init_database_cursorInv pB now s h
  · split
    · exact init_database_cursorInv fB now s h
    · exact h

/-- A state after one fully successful initialization. -/
def goodState : SnowflakeDB := (init_database bGood 0 (SnowflakeDB.new [])).1

/-- `goodState` after a re-initialization whose `connect` succeeded but
whose `cursor()` call failed: the old cursor handle survives. -/
def staleState : SnowflakeDB := (init_database bBadCursor 5 goodState).1

/-- Counterexample to C8 as stated: in the reachable state reached by a
successful initialization followed by a failed one (connect ok, cursor
raising), a cursor handle exists although the most recent initialization
did not succeed. -/
theorem cursor_invariant_cex :
    ¬ ∀ s : SnowflakeDB, Reachable s →
        (s.cursor.isSome = true
          ↔ s.connection.isSome = true ∧ s.lastInitOk = some true) := by
  intro hall
  have hr : Reachable staleState :=
    Reachable.initStep bBadCursor 5 goodState
      (Reachable.initStep bGood 0 (SnowflakeDB.new []) (Reachable.construct []))
  have h := hall staleState hr
  have h2 := h.mp rfl
  exact absurd h2.2 (by decide)

/-- C8 (amended): in every reachable state — including states reached
through failed initializations — a cursor handle exists iff some
initialization has ever succeeded, and a cursor handle implies a connection
handle. -/
theorem cursor_invariant_amended (s : SnowflakeDB) (h : Reachable s) :
    (s.cursor.isSome = true ↔ s.everInitOk = true)
    ∧ (s.cursor.isSome = true → s.connection.isSome = true) := by
  induction h with
  | construct config => exact ⟨by simp [SnowflakeDB.new], by simp [SnowflakeDB.new]⟩
  | initStep b now s2 hs ih => exact init_database_cursorInv b now s2 ih
  | testStep env s2 hs ih =>
      rw [test_connection_state]
      exact ensureStep_cursorInv env.pendingB env.freshB env.now s2 ih
  | execStep env s2 hs ih =>
      rw [execute_query_state]
      exact ensureStep_cursorInv env.pendingB env.freshB env.now s2 ih
  | addStep i s2 hs ih => exact ih
  | startStep s2 hs ih => exact ih

/-- Witness for C8 (amended) at the concrete state after one successful
initialization. -/
theorem cursor_invariant_amended_witness :
    (goodState.cursor.isSome = true ↔ goodState.everInitOk = true)
    ∧ (goodState.cursor.isSome = true → goodState.connection.isSome = true) :=
  cursor_invariant_amended goodState
    (Reachable.initStep bGood 0 (SnowflakeDB.new []) (Reachable.construct []))
